import Mathlib

/-!
Shallow embedding of `build-cameras.js`, the static-site build script of the
metergeist repository.  JavaScript strings are modelled as Lean `String`,
JSON numbers as `Int`, absent object properties as `Option`, and JavaScript
truthiness is modelled explicitly at every place the source tests a value
(`if (x)`, `x ? a : b`, `x || y`).  Global single-character regex
replacement (`s.replace(/c/g, r)`) is modelled as character-wise
substitution over `String.data`.  `Array.prototype.sort` (stable, comparator
based) is modelled with `List.mergeSort`; `String.prototype.localeCompare`
is modelled as lexicographic comparison of Unicode code points, which agrees
with locale-aware comparison on the ASCII brand names the script handles.
-/

/-- JavaScript `x || y` on numbers: `x` when truthy (non-zero), else `y`;
`none` models `undefined`. -/
def jsOrI : Option Int → Int → Int
  | some n, b => if n = 0 then b else n
  | none, b => b

/-- JavaScript `x || y` on strings: `x` when truthy (non-empty), else `y`;
`none` models `undefined`/`null`. -/
def jsOrS : Option String → String → String
  | some s, b => if s = "" then b else s
  | none, b => b

/-- JavaScript truthiness of a possibly-absent string (`undefined`, `null`
and `""` are falsy). -/
def truthyS : Option String → Bool
  | some s => !(decide (s = ""))
  | none => false

/-- JavaScript truthiness of a possibly-absent number (`undefined`, `null`
and `0` are falsy). -/
def truthyOI : Option Int → Bool
  | some n => !(decide (n = 0))
  | none => false

/-- A JSON scalar as stored in a free-form `specs` object. -/
inductive JVal where
  | jnull
  | jstr (s : String)
  | jnum (n : Int)
deriving DecidableEq

/-- JavaScript truthiness of a `JVal`. -/
def JVal.truthy : JVal → Bool
  | .jnull => false
  | .jstr s => !(decide (s = ""))
  | .jnum n => !(decide (n = 0))

/-- JavaScript `String(v)` on a `JVal`. -/
def JVal.toJsString : JVal → String
  | .jnull => "null"
  | .jstr s => s
  | .jnum n => toString n

/-- Global replacement of the single character `c` by the string `r`
(JavaScript `s.replace(/c/g, r)`), over a character list. -/
def replaceChar (c : Char) (r : List Char) : List Char → List Char
  | [] => []
  | x :: xs => (if x = c then r else [x]) ++ replaceChar c r xs

/-- `escHtml` from build-cameras.js: falsy input (absent, `null`, `""`)
yields `""`; otherwise `&`, `<`, `>`, `"` are replaced in that order. -/
def escHtml (s : Option String) : String :=
  match s with
  | none => ""
  | some s =>
    if s = "" then ""
    else ⟨replaceChar '"' "&quot;".data
           (replaceChar '>' "&gt;".data
             (replaceChar '<' "&lt;".data
               (replaceChar '&' "&amp;".data s.data)))⟩

/-- The value found at one pricing-condition key: absent (`undefined`),
present `null`, or a `{min, max}` range object. -/
inductive PSlot where
  | undef
  | jnull
  | range (mn mx : Int)
deriving DecidableEq

/-- JavaScript truthiness of a condition entry (only an object is truthy). -/
def PSlot.truthy : PSlot → Bool
  | .range _ _ => true
  | _ => false

/-- Optional chaining `slot?.min`. -/
def PSlot.minv : PSlot → Option Int
  | .range mn _ => some mn
  | _ => none

/-- Optional chaining `slot?.max`. -/
def PSlot.maxv : PSlot → Option Int
  | .range _ mx => some mx
  | _ => none

/-- The `pricing` object of a camera record. -/
structure Pricing where
  poor : PSlot
  average : PSlot
  good : PSlot
  excellent : PSlot
  mint : PSlot
  source : Option String
deriving DecidableEq

/-- The `specs` object: a JavaScript object modelled as an association list
(keys unique in real data; lookup takes the first match). -/
def Specs := List (String × JVal)
deriving instance DecidableEq for Specs

/-- JavaScript property lookup `specs[key]` (`none` models `undefined`). -/
def jsGet : Specs → String → Option JVal
  | [], _ => none
  | (k, v) :: rest, q => if k = q then some v else jsGet rest q

/-- An entry of the `articles` resource list. -/
structure Article where
  url : String
  title : String
  source : String
deriving DecidableEq

/-- An entry of the `manuals` resource list. -/
structure Manual where
  url : String
  source : String
deriving DecidableEq

/-- An entry of the `galleries` resource list. -/
structure Gallery where
  url : String
  label : String
deriving DecidableEq

/-- The `imageAttribution` object. -/
structure Attribution where
  author : String
  license : String
  licenseUrl : String
  sourceUrl : String
deriving DecidableEq

/-- A camera record as read from one JSON data file.  Fields the script
treats as optional are `Option`s. -/
structure Camera where
  id : String
  brand : String
  fullName : String
  tagline : Option String
  yearStart : Int
  yearEnd : Option Int
  format : Option String
  film : Option (List String)
  madeIn : Option String
  specs : Option Specs
  features : Option (List String)
  history : Option String
  famousUsers : Option String
  popCulture : Option String
  innovations : Option (List String)
  notes : Option String
  pricing : Option Pricing
  ebayUrl : Option String
  articles : Option (List Article)
  manuals : Option (List Manual)
  galleries : Option (List Gallery)
  localImage : Option String
  imageAttribution : Option Attribution
deriving DecidableEq

/-- `Array.prototype.join(sep)`. -/
def joinStr (sep : String) : List String → String
  | [] => ""
  | [x] => x
  | x :: y :: xs => x ++ sep ++ joinStr sep (y :: xs)

/-- Does `hay` start with `needle`? (auxiliary for `strIncludes`). -/
def startsWithL : List Char → List Char → Bool
  | [], _ => true
  | _ :: _, [] => false
  | c :: cs, d :: ds => c = d && startsWithL cs ds

/-- Does `hay` contain `needle` as a contiguous run? -/
def hasSubL (needle : List Char) : List Char → Bool
  | [] => needle.isEmpty
  | c :: cs => startsWithL needle (c :: cs) || hasSubL needle cs

/-- JavaScript `hay.includes(needle)`. -/
def strIncludes (hay needle : String) : Bool := hasSubL needle.data hay.data

/-- `needle` occurs contiguously inside `hay` (propositional form). -/
def StrContains (hay needle : String) : Prop :=
  ∃ s t, s ++ needle.data ++ t = hay.data

/-- Accumulator loop for `basename`: restart after every `/`. -/
def basenameAux : List Char → List Char → List Char
  | [], acc => acc.reverse
  | c :: cs, acc => if c = '/' then basenameAux cs [] else basenameAux cs (c :: acc)

/-- `path.basename`: the part after the last `/` (paths in the data carry no
trailing separator). -/
def basename (s : String) : String := ⟨basenameAux s.data []⟩

/-- JavaScript `s.toLowerCase()` (character-wise lowering). -/
def jsToLower (s : String) : String := ⟨s.data.map Char.toLower⟩

/-- Lexicographic code-point comparison of character lists, returning
negative / zero / positive like `localeCompare`. -/
def strCmpL : List Char → List Char → Int
  | [], [] => 0
  | [], _ :: _ => -1
  | _ :: _, [] => 1
  | a :: as, b :: bs => if a < b then -1 else if b < a then 1 else strCmpL as bs

/-- Model of `a.localeCompare(b)` (code-point order; agrees with locale
order on the ASCII brand names in the data). -/
def localeCompare (a b : String) : Int := strCmpL a.data b.data

/-- JavaScript `x || y` on two numbers (`0` is falsy). -/
def jsOrInt (x y : Int) : Int := if x = 0 then y else x

/-- The sort comparator of line 16:
`(a, b) => a.brand.localeCompare(b.brand) || a.yearStart - b.yearStart`. -/
def camCmp (a b : Camera) : Int :=
  jsOrInt (localeCompare a.brand b.brand) (a.yearStart - b.yearStart)

/-- Boolean `≤` form of the comparator, as used by the stable sort. -/
def camLe (a b : Camera) : Bool := decide (camCmp a b ≤ 0)

/-- `cameras.sort(...)`: stable comparator sort of the loaded records. -/
def sortCameras (l : List Camera) : List Camera := l.mergeSort camLe

/-- One step of the grouping loop (lines 19-23): a JavaScript object used as
a map from brand to the array of its cameras, updated in place. -/
def addToGroup : List (String × List Camera) → Camera → List (String × List Camera)
  | [], cam => [(cam.brand, [cam])]
  | (b, cs) :: rest, cam =>
    if b = cam.brand then (b, cs ++ [cam]) :: rest
    else (b, cs) :: addToGroup rest cam

/-- The grouping map `brands` built by one forward pass over the sorted
collection. -/
def groupByBrand (cams : List Camera) : List (String × List Camera) :=
  cams.foldl addToGroup []

/-- `brands[b] || []`. -/
def groupGet : List (String × List Camera) → String → List Camera
  | [], _ => []
  | (b, cs) :: rest, q => if b = q then cs else groupGet rest q

/-- Brand display order (line 26). -/
def brandOrder : List String := ["Rollei", "Yashica", "Mamiya", "Minolta"]

/-- One price-table row (line 41). -/
def rowStr (label : String) (mn mx : Int) : String :=
  "<tr><td>" ++ label ++ "</td><td>$" ++ toString mn ++ " – $" ++ toString mx ++ "</td></tr>"

/-- The five condition slots of a pricing object paired with their display
labels, in the fixed order of lines 35-36. -/
def condList (p : Pricing) : List (PSlot × String) :=
  [(p.poor, "Poor"), (p.average, "Average"), (p.good, "Good"),
   (p.excellent, "Excellent"), (p.mint, "Mint")]

/-- The row accumulation loop of lines 37-43. -/
def priceRows (p : Pricing) : String :=
  (condList p).foldl
    (fun rows sl =>
      match sl.1 with
      | PSlot.range mn mx => rows ++ rowStr sl.2 mn mx
      | _ => rows) ""

/-- The optional `Source:` footnote of line 52. -/
def priceSourceHtml (p : Pricing) : String :=
  if truthyS p.source then
    "<p class=\"price-source\">Source: " ++ escHtml p.source ++ "</p>"
  else ""

/-- `formatPrice` from build-cameras.js (lines 33-54). -/
def formatPrice (pricing : Option Pricing) : String :=
  match pricing with
  | none => ""
  | some p =>
    let rows := priceRows p
    if rows = "" then ""
    else
      "\n    <div class=\"pricing-table\">\n      <h3>Current Market Prices (USD)</h3>\n      <table>\n        <thead><tr><th scope=\"col\">Condition</th><th scope=\"col\">Price Range</th></tr></thead>\n        <tbody>"
      ++ rows
      ++ "</tbody>\n      </table>\n      "
      ++ priceSourceHtml p
      ++ "\n    </div>"

/-- The fixed, ordered field list of the specifications table (lines 58-68). -/
def specFields : List (String × String) :=
  [("takingLens", "Taking Lens"), ("viewingLens", "Viewing Lens"),
   ("elements", "Lens Elements"), ("shutter", "Shutter"),
   ("shutterSpeeds", "Shutter Speeds"), ("meter", "Light Meter"),
   ("filterMount", "Filter Mount"), ("focusing", "Focusing"),
   ("weight", "Weight")]

/-- One specifications row (line 72). -/
def specRow (label : String) (v : JVal) : String :=
  "<tr><td>" ++ label ++ "</td><td>" ++ escHtml (some v.toJsString) ++ "</td></tr>"

/-- The row accumulation loop of lines 69-74. -/
def specsRows (sp : Specs) : String :=
  specFields.foldl
    (fun rows kl =>
      match jsGet sp kl.1 with
      | some v => if v.truthy then rows ++ specRow kl.2 v else rows
      | none => rows) ""

/-- `specsTable` from build-cameras.js (lines 56-76). -/
def specsTable (specs : Option Specs) : String :=
  match specs with
  | none => ""
  | some sp =>
    "<table class=\"specs-table\" role=\"table\" aria-label=\"Camera specifications\"><tbody>"
    ++ specsRows sp ++ "</tbody></table>"

/-- The `siblings` list of `relatedCameras` (line 80): same brand, excluding
records with this record's id. -/
def siblingsOf (grp : List (String × List Camera)) (cam : Camera) : List Camera :=
  (groupGet grp cam.brand).filter (fun c => !(decide (c.id = cam.id)))

/-- One related-camera link (lines 82-84). -/
def relatedLink (c : Camera) : String :=
  "<a href=\"/cameras/" ++ c.id ++ ".html\">" ++ escHtml (some c.fullName) ++ "</a>"

/-- `relatedCameras` from build-cameras.js (lines 78-86). -/
def relatedCameras (grp : List (String × List Camera)) (cam : Camera) : String :=
  let siblings := siblingsOf grp cam
  if siblings.length = 0 then ""
  else
    "<div class=\"related\"><h3>More " ++ escHtml (some cam.brand)
    ++ " TLR Cameras</h3><p>" ++ joinStr ", " (siblings.map relatedLink)
    ++ "</p></div>"

/-- One article list item (line 91). -/
def articleItem (a : Article) : String :=
  "<li><a href=\"" ++ escHtml (some a.url) ++ ("\" target=\"_blank\" rel=\"noopener\">")
  ++ escHtml (some a.title) ++ "</a> <span class=\"source\">— "
  ++ escHtml (some a.source) ++ "</span></li>"

/-- `articlesList` from build-cameras.js (lines 88-94). -/
def articlesList (articles : Option (List Article)) : String :=
  match articles with
  | none => ""
  | some as =>
    if as.length = 0 then ""
    else
      "<div class=\"resources\"><h3>Articles &amp; Reviews</h3><ul>"
      ++ joinStr "\n" (as.map articleItem) ++ "</ul></div>"

/-- One manual list item (line 99). -/
def manualItem (m : Manual) : String :=
  "<li><a href=\"" ++ escHtml (some m.url) ++ ("\" target=\"_blank\" rel=\"noopener\">")
  ++ escHtml (some m.source) ++ "</a></li>"

/-- `manualsList` from build-cameras.js (lines 96-102). -/
def manualsList (manuals : Option (List Manual)) : String :=
  match manuals with
  | none => ""
  | some ms =>
    if ms.length = 0 then ""
    else
      "<div class=\"resources\"><h3>Manuals &amp; Documentation</h3><ul>"
      ++ joinStr "\n" (ms.map manualItem) ++ "</ul></div>"

/-- The `rel` attribute chosen for a gallery link (lines 108-109):
`nofollow` exactly for URLs containing `google.com`. -/
def galleryRel (g : Gallery) : String :=
  if !(decide (g.url = "")) && strIncludes g.url "google.com" then "noopener nofollow"
  else "noopener"

/-- One gallery list item (line 110). -/
def galleryItem (g : Gallery) : String :=
  "<li><a href=\"" ++ escHtml (some g.url)
  ++ "\" target=\"_blank\" " ++ ("rel=\"" ++ galleryRel g ++ "\">")
  ++ escHtml (some g.label) ++ "</a></li>"

/-- `galleriesList` from build-cameras.js (lines 104-113). -/
def galleriesList (galleries : Option (List Gallery)) : String :=
  match galleries with
  | none => ""
  | some gs =>
    if gs.length = 0 then ""
    else
      "<div class=\"resources\"><h3>Photo Galleries</h3><ul>"
      ++ joinStr "\n" (gs.map galleryItem) ++ "</ul></div>"

/-- `imageAttribution` from build-cameras.js (lines 115-118). -/
def imageAttributionHtml (attr : Option Attribution) : String :=
  match attr with
  | none => ""
  | some a =>
    "<p class=\"attribution\">Photo: " ++ escHtml (some a.author)
    ++ " · <a href=\"" ++ escHtml (some a.licenseUrl)
    ++ "\" target=\"_blank\" rel=\"noopener\">" ++ escHtml (some a.license)
    ++ "</a> · <a href=\"" ++ escHtml (some a.sourceUrl)
    ++ "\" target=\"_blank\" rel=\"noopener\">Source</a></p>"

/-- The offer object nested in the structured data (lines 131-137); the
constant `@type`, currency and count fields are fixed, so only the two
computed bounds are carried. -/
structure AggregateOffer where
  lowPrice : Int
  highPrice : Int
deriving DecidableEq

/-- The `offers` property of the structured-data object (lines 130-138):
present only when `pricing && pricing.average` is truthy;
`lowPrice = pricing.poor?.min || pricing.average.min`,
`highPrice = pricing.mint?.max || pricing.excellent?.max || pricing.average.max`. -/
def jsonLdOffers (pricing : Option Pricing) : Option AggregateOffer :=
  match pricing with
  | none => none
  | some p =>
    match p.average with
    | PSlot.range amn amx =>
      some { lowPrice := jsOrI p.poor.minv amn,
             highPrice := jsOrI p.mint.maxv (jsOrI p.excellent.maxv amx) }
    | _ => none

/-- The `description` property (line 125): tagline, with a fallback. -/
def jsonLdDescription (cam : Camera) : String :=
  jsOrS cam.tagline (cam.fullName ++ " twin-lens reflex camera")

/-- The `image` property (line 128): present only when `localImage` is
truthy; `undefined` properties are dropped by `JSON.stringify`. -/
def jsonLdImage (cam : Camera) : Option String :=
  match cam.localImage with
  | some s => if s = "" then none else some ("https://metergeist.com/images/" ++ basename s)
  | none => none

/-- `JSON.stringify` escaping of one character inside a JSON string
(quote, backslash and common control characters). -/
def jsonEscChar (c : Char) : List Char :=
  if c = '"' then ['\\', '"']
  else if c = '\\' then ['\\', '\\']
  else if c = '\n' then ['\\', 'n']
  else if c = '\r' then ['\\', 'r']
  else if c = '\t' then ['\\', 't']
  else [c]

/-- A JSON string literal with quotes. -/
def jsonStr (s : String) : String := "\"" ++ String.mk (s.data.flatMap jsonEscChar) ++ "\""

/-- Serialized `offers` value. -/
def offerJson (o : AggregateOffer) : String :=
  "\x7b\"@type\":\"AggregateOffer\",\"priceCurrency\":\"USD\",\"lowPrice\":"
  ++ toString o.lowPrice ++ ",\"highPrice\":" ++ toString o.highPrice
  ++ ",\"offerCount\":1\x7d"

/-- `JSON.stringify(data)` for the structured-data object of lines 121-138,
with the source's property insertion order. -/
def jsonLdBody (cam : Camera) : String :=
  "\x7b\"@context\":\"https://schema.org\",\"@type\":\"Product\",\"name\":"
  ++ jsonStr cam.fullName
  ++ ",\"description\":" ++ jsonStr (jsonLdDescription cam)
  ++ ",\"brand\":\x7b\"@type\":\"Brand\",\"name\":" ++ jsonStr cam.brand
  ++ "\x7d,\"category\":\"Twin-Lens Reflex Camera\""
  ++ (match jsonLdImage cam with
      | some u => ",\"image\":" ++ jsonStr u
      | none => "")
  ++ (match jsonLdOffers cam.pricing with
      | some o => ",\"offers\":" ++ offerJson o
      | none => "")
  ++ "\x7d"

/-- `jsonLd` from build-cameras.js (lines 120-140). -/
def jsonLd (cam : Camera) : String :=
  "<script type=\"application/ld+json\">" ++ jsonLdBody cam ++ "</script>"

/-- The `years` display string (line 144): `yearEnd` is tested for
truthiness. -/
def yearsStr (cam : Camera) : String :=
  if truthyOI cam.yearEnd then
    toString cam.yearStart ++ "–" ++ toString (cam.yearEnd.getD 0)
  else toString cam.yearStart

/-- The regex replace of line 145: strip one trailing period together with
any whitespace after it. -/
def stripDotEnd (s : String) : String :=
  match s.data.reverse.dropWhile Char.isWhitespace with
  | c :: rest => if c = '.' then String.mk rest.reverse else s
  | [] => s

/-- `taglineClean` (line 145). -/
def taglineClean (cam : Camera) : String :=
  stripDotEnd (jsOrS cam.tagline "Twin-lens reflex camera")

/-- `metaDesc` (line 146). -/
def metaDesc (cam : Camera) : String :=
  cam.fullName ++ " (" ++ yearsStr cam ++ ") — " ++ taglineClean cam
  ++ ". Specs, pricing, history, and resources."

/-- `imgFile` (line 147): basename of `localImage` when truthy, else null. -/
def imgFile (cam : Camera) : Option String :=
  match cam.localImage with
  | some s => if s = "" then none else some (basename s)
  | none => none

/-- `featuresHtml` (lines 149-151). -/
def featuresHtml (cam : Camera) : String :=
  match cam.features with
  | some fs =>
    if fs.length > 0 then
      "<ul class=\"features-list\">"
      ++ joinStr "" (fs.map (fun f => "<li>" ++ escHtml (some f) ++ "</li>"))
      ++ "</ul>"
    else ""
  | none => ""

/-- `innovationsHtml` (lines 153-155). -/
def innovationsHtml (cam : Camera) : String :=
  match cam.innovations with
  | some is =>
    if is.length > 0 then
      "<div class=\"innovations\"><h3>Innovations</h3><ul>"
      ++ joinStr "" (is.map (fun i => "<li>" ++ escHtml (some i) ++ "</li>"))
      ++ "</ul></div>"
    else ""
  | none => ""

/-- `famousUsersHtml` (lines 157-159). -/
def famousUsersHtml (cam : Camera) : String :=
  if truthyS cam.famousUsers then
    "<div class=\"famous-users\"><h3>Notable Photographers</h3><p>"
    ++ escHtml cam.famousUsers ++ "</p></div>"
  else ""

/-- `popCultureHtml` (lines 161-163). -/
def popCultureHtml (cam : Camera) : String :=
  if truthyS cam.popCulture then
    "<div class=\"pop-culture\"><h3>Cultural Significance</h3><p>"
    ++ escHtml cam.popCulture ++ "</p></div>"
  else ""

/-- `notesHtml` (lines 165-167). -/
def notesHtml (cam : Camera) : String :=
  if truthyS cam.notes then
    "<div class=\"collector-notes\"><h3>Collector Notes</h3><p>"
    ++ escHtml cam.notes ++ "</p></div>"
  else ""

/-- `ebayHtml` (lines 169-171). -/
def ebayHtml (cam : Camera) : String :=
  if truthyS cam.ebayUrl then
    "<p class=\"shop-link\"><a href=\"" ++ escHtml cam.ebayUrl
    ++ "\" target=\"_blank\" rel=\"noopener nofollow sponsored\">Shop for "
    ++ escHtml (some cam.fullName) ++ " on eBay</a></p>"
  else ""

/-- The tagline paragraph of line 210. -/
def taglineHtml (cam : Camera) : String :=
  if truthyS cam.tagline then
    "<p class=\"cam-tagline\">" ++ escHtml cam.tagline ++ "</p>"
  else ""

/-- The film list with its default (line 214): `cam.film || ['120']`
(an empty array is truthy in JavaScript, so only absence falls back). -/
def jsFilm (cam : Camera) : List String :=
  match cam.film with
  | some l => l
  | none => ["120"]

/-- The `Made in` span of line 215. -/
def madeInHtml (cam : Camera) : String :=
  if truthyS cam.madeIn then
    "<span class=\"cam-origin\">Made in " ++ escHtml cam.madeIn ++ "</span>"
  else ""

/-- The `cam-meta` block of lines 212-216. -/
def camMeta (cam : Camera) : String :=
  "<div class=\"cam-meta\">\n      <span class=\"cam-years\">" ++ yearsStr cam
  ++ "</span>\n      <span class=\"cam-format\">" ++ escHtml cam.format
  ++ (" on " ++ (escHtml (some (joinStr "/" (jsFilm cam))) ++ " film</span>"))
  ++ "\n      " ++ madeInHtml cam ++ "\n    </div>"

/-- The `og:image` meta tag of line 184. -/
def ogImageHtml (cam : Camera) : String :=
  match imgFile cam with
  | some f => "<meta property=\"og:image\" content=\"https://metergeist.com/images/" ++ f ++ "\">"
  | none => ""

/-- The image column of lines 219-223. -/
def camImageHtml (cam : Camera) : String :=
  match imgFile cam with
  | some f =>
    "\n      <div class=\"cam-image\">\n        <img src=\"/images/" ++ f
    ++ "\" alt=\"" ++ escHtml (some cam.fullName)
    ++ " twin-lens reflex camera\" loading=\"lazy\">\n        "
    ++ imageAttributionHtml cam.imageAttribution ++ "\n      </div>"
  | none => ""

/-- The history block of line 232. -/
def historyHtml (cam : Camera) : String :=
  if truthyS cam.history then
    "<div class=\"cam-history\"><h2>History</h2><p>" ++ escHtml cam.history ++ "</p></div>"
  else ""

/-- The full per-camera page template (lines 173-264), as the concatenation
of its literal chunks and interpolations.  `grp` is the global `brands`
grouping map. -/
def pageHtml (grp : List (String × List Camera)) (cam : Camera) : String :=
  "<!DOCTYPE html>\n<html lang=\"en\">\n<head>\n  <meta charset=\"UTF-8\">\n  <meta name=\"viewport\" content=\"width=device-width, initial-scale=1.0\">\n  <title>"
  ++ escHtml (some cam.fullName)
  ++ " — TLR Camera Guide | metergeist</title>\n  <meta name=\"description\" content=\""
  ++ escHtml (some (metaDesc cam))
  ++ "\">\n  <meta property=\"og:title\" content=\""
  ++ escHtml (some cam.fullName)
  ++ " — TLR Camera Guide\">\n  <meta property=\"og:description\" content=\""
  ++ escHtml (some (metaDesc cam))
  ++ "\">\n  <meta property=\"og:type\" content=\"article\">\n  <meta property=\"og:url\" content=\"https://metergeist.com/cameras/"
  ++ cam.id
  ++ ".html\">\n  "
  ++ ogImageHtml cam
  ++ "\n  <link rel=\"stylesheet\" href=\"/style.css\">\n  <link rel=\"stylesheet\" href=\"/cameras/cameras.css\">\n  <link rel=\"icon\" href=\"/icon.png\" type=\"image/png\">\n  <link rel=\"canonical\" href=\"https://metergeist.com/cameras/"
  ++ cam.id
  ++ ".html\">\n  "
  ++ jsonLd cam
  ++ "\n</head>\n<body>\n  <a href=\"#main\" class=\"skip-link\">Skip to content</a>\n  <nav aria-label=\"Main navigation\">\n    <a href=\"/\" class=\"logo\">\n      <img src=\"/icon.png\" alt=\"metergeist icon\">\n      <span>metergeist</span>\n    </a>\n    <div class=\"links\">\n      <a href=\"/cameras/\">TLR Guide</a>\n      <a href=\"/privacy.html\">Privacy</a>\n      <a href=\"/support.html\">Support</a>\n    </div>\n  </nav>\n\n  <main id=\"main\">\n  <div class=\"content camera-page\">\n    <p class=\"breadcrumb\"><a href=\"/cameras/\">TLR Camera Guide</a> &rsaquo; <a href=\"/cameras/#"
  ++ (jsToLower cam.brand ++ "\">")
  ++ escHtml (some cam.brand)
  ++ "</a> &rsaquo; "
  ++ escHtml (some cam.fullName)
  ++ "</p>\n\n    <h1>"
  ++ escHtml (some cam.fullName)
  ++ "</h1>\n    "
  ++ taglineHtml cam
  ++ "\n\n    "
  ++ camMeta cam
  ++ "\n\n    <div class=\"cam-layout\">\n      "
  ++ camImageHtml cam
  ++ "\n\n      <div class=\"cam-details\">\n        <h2>Specifications</h2>\n        "
  ++ specsTable cam.specs
  ++ "\n        "
  ++ featuresHtml cam
  ++ "\n      </div>\n    </div>\n\n    "
  ++ historyHtml cam
  ++ "\n\n    "
  ++ famousUsersHtml cam
  ++ "\n    "
  ++ popCultureHtml cam
  ++ "\n    "
  ++ innovationsHtml cam
  ++ "\n    "
  ++ notesHtml cam
  ++ "\n\n    "
  ++ formatPrice cam.pricing
  ++ "\n    "
  ++ ebayHtml cam
  ++ "\n\n    "
  ++ articlesList cam.articles
  ++ "\n    "
  ++ manualsList cam.manuals
  ++ "\n    "
  ++ galleriesList cam.galleries
  ++ "\n\n    "
  ++ relatedCameras grp cam
  ++ "\n\n    <div class=\"app-cta\">\n      <h3>Shoot with your "
  ++ escHtml (some cam.fullName)
  ++ "</h3>\n      <p><a href=\"/\">metergeist</a> is a free <a href=\"/\">light meter app</a> and <a href=\"/\">film roll tracker</a> built for <a href=\"/cameras/\">TLR</a> and medium format photographers. Meter light, load film, track every frame.</p>\n    </div>\n  </div>\n  </main>\n\n  <footer>\n    &copy; 2026 metergeist\n    <div class=\"links\">\n      <a href=\"/cameras/\">TLR Guide</a>\n      <a href=\"/privacy.html\">Privacy</a>\n      <a href=\"/support.html\">Support</a>\n    </div>\n  </footer>\n</body>\n</html>"

/-- The card image of an index summary card (line 280). -/
def cardImgHtml (cam : Camera) : String :=
  match imgFile cam with
  | some f =>
    "<img src=\"/images/" ++ f ++ "\" alt=\"" ++ escHtml (some cam.fullName)
    ++ " TLR camera\" loading=\"lazy\">"
  | none => ""

/-- The `priceRange` string of lines 275-277:
`cam.pricing?.average` tested for truthiness. -/
def cardPriceRange (cam : Camera) : String :=
  match cam.pricing with
  | some p =>
    match p.average with
    | PSlot.range mn mx => "$" ++ toString mn ++ "–$" ++ toString mx
    | _ => ""
  | none => ""

/-- The card price span of line 284 (`priceRange` tested for truthiness). -/
def cardPriceHtml (cam : Camera) : String :=
  if cardPriceRange cam = "" then ""
  else "<span class=\"card-price\">" ++ cardPriceRange cam ++ " avg</span>"

/-- One index summary card (lines 278-286). -/
def cardHtml (cam : Camera) : String :=
  "\n      <a href=\"/cameras/" ++ cam.id ++ ".html\" class=\"camera-card\">\n        "
  ++ cardImgHtml cam
  ++ "\n        <div class=\"card-info\">\n          <h3>" ++ escHtml (some cam.fullName)
  ++ "</h3>\n          <span class=\"card-years\">" ++ yearsStr cam
  ++ "</span>\n          " ++ cardPriceHtml cam
  ++ "\n        </div>\n      </a>"

/-- The titled `<h2>` heading of one brand section (line 291). -/
def sectionH2 (b : String) : String :=
  "<h2>" ++ escHtml (some b) ++ " TLR Cameras</h2>"

/-- One brand section of the index page (lines 270-293); note no brand of
the fixed order is skipped, an empty group yields an empty grid. -/
def brandSectionFor (grp : List (String × List Camera)) (b : String) : String :=
  "\n    <div class=\"brand-section\" id=\"" ++ (jsToLower b ++ "\">\n      ")
  ++ sectionH2 b
  ++ "\n      <div class=\"camera-grid\">"
  ++ joinStr "\n" ((groupGet grp b).map cardHtml)
  ++ "</div>\n    </div>"

/-- `brandSections` (lines 270-294): one section per brand of the fixed
display order, joined by newlines. -/
def brandSections (grp : List (String × List Camera)) : String :=
  joinStr "\n" (brandOrder.map (brandSectionFor grp))

/-- The index page template (lines 296-368). -/
def indexHtml (cameras : List Camera) (grp : List (String × List Camera)) : String :=
  "<!DOCTYPE html>\n<html lang=\"en\">\n<head>\n  <meta charset=\"UTF-8\">\n  <meta name=\"viewport\" content=\"width=device-width, initial-scale=1.0\">\n  <title>TLR Camera Guide — Twin Lens Reflex Cameras | metergeist</title>\n  <meta name=\"description\" content=\"Complete guide to 48 twin-lens reflex (TLR) cameras. Specs, history, pricing, and resources for Rolleiflex, Rolleicord, Yashica, Mamiya, and Minolta TLR cameras.\">\n  <meta property=\"og:title\" content=\"TLR Camera Guide — Twin Lens Reflex Cameras\">\n  <meta property=\"og:description\" content=\"Complete guide to 48 TLR cameras. Specs, history, pricing, and resources for Rolleiflex, Yashica, Mamiya, and Minolta.\">\n  <meta property=\"og:type\" content=\"website\">\n  <meta property=\"og:url\" content=\"https://metergeist.com/cameras/\">\n  <link rel=\"stylesheet\" href=\"/style.css\">\n  <link rel=\"stylesheet\" href=\"/cameras/cameras.css\">\n  <link rel=\"icon\" href=\"/icon.png\" type=\"image/png\">\n  <link rel=\"canonical\" href=\"https://metergeist.com/cameras/\">\n  <script type=\"application/ld+json\">\n  \x7b\n    \"@context\": \"https://schema.org\",\n    \"@type\": \"CollectionPage\",\n    \"name\": \"TLR Camera Guide\",\n    \"description\": \"Complete guide to 48 twin-lens reflex cameras from Rolleiflex, Yashica, Mamiya, and Minolta.\",\n    \"url\": \"https://metergeist.com/cameras/\",\n    \"numberOfItems\": "
  ++ toString cameras.length
  ++ "\n  \x7d\n  </script>\n</head>\n<body>\n  <a href=\"#main\" class=\"skip-link\">Skip to content</a>\n  <nav aria-label=\"Main navigation\">\n    <a href=\"/\" class=\"logo\">\n      <img src=\"/icon.png\" alt=\"metergeist icon\">\n      <span>metergeist</span>\n    </a>\n    <div class=\"links\">\n      <a href=\"/cameras/\">TLR Guide</a>\n      <a href=\"/privacy.html\">Privacy</a>\n      <a href=\"/support.html\">Support</a>\n    </div>\n  </nav>\n\n  <main id=\"main\">\n  <div class=\"content\">\n    <h1>TLR Camera Guide</h1>\n    <p class=\"guide-intro\">A comprehensive guide to <strong>"
  ++ toString cameras.length
  ++ " twin-lens reflex cameras</strong> spanning 1928 to 1986. Explore specs, history, current market prices, manuals, and sample photos for every major TLR from <a href=\"#rollei\">Rolleiflex</a>, <a href=\"#yashica\">Yashica</a>, <a href=\"#mamiya\">Mamiya</a>, and <a href=\"#minolta\">Minolta</a>.</p>\n\n    <p class=\"guide-intro\">Whether you\x27re buying your first medium format camera or researching a specific model, this guide covers every TLR from the affordable <a href=\"/cameras/yashica-a.html\">Yashica-A</a> to the legendary <a href=\"/cameras/rolleiflex-28f.html\">Rolleiflex 2.8F</a>.</p>\n\n    <div class=\"brand-nav\">\n      <a href=\"#rollei\">Rolleiflex &amp; Rolleicord</a>\n      <a href=\"#yashica\">Yashica</a>\n      <a href=\"#mamiya\">Mamiya</a>\n      <a href=\"#minolta\">Minolta</a>\n    </div>\n\n    "
  ++ brandSections grp
  ++ "\n\n    <div class=\"app-cta\">\n      <h2>Meter light for your TLR</h2>\n      <p><a href=\"/\">metergeist</a> is a free <a href=\"/\">light meter app for film photography</a> built for <a href=\"/cameras/\">TLR camera</a> and medium format shooters. Real-time metering, film roll tracking, and reference photos — all on your iPhone.</p>\n    </div>\n  </div>\n  </main>\n\n  <footer>\n    &copy; 2026 metergeist\n    <div class=\"links\">\n      <a href=\"/cameras/\">TLR Guide</a>\n      <a href=\"/privacy.html\">Privacy</a>\n      <a href=\"/support.html\">Support</a>\n    </div>\n  </footer>\n</body>\n</html>"

/-- The writer stage: the list of (file name, document) pairs the run
persists — one page per sorted record plus the index. -/
def outputs (l : List Camera) : List (String × String) :=
  let cameras := sortCameras l
  let grp := groupByBrand cameras
  cameras.map (fun cam => (cam.id ++ ".html", pageHtml grp cam))
  ++ [("index.html", indexHtml cameras grp)]


/-- Per-character HTML entity encoding: the single-pass specification the
chained replacements of `escHtml` are compared against. -/
def htmlEncChar (c : Char) : List Char :=
  if c = '&' then "&amp;".data
  else if c = '<' then "&lt;".data
  else if c = '>' then "&gt;".data
  else if c = '"' then "&quot;".data
  else [c]

/-- The rendered row of one (condition, label) pair; empty for a slot that
has no range. -/
def rowFor (sl : PSlot × String) : String :=
  match sl.1 with
  | PSlot.range mn mx => rowStr sl.2 mn mx
  | _ => ""

/-- A condition slot whose range bounds, when present, are positive (true of
all real price data; rules out the `0`-is-falsy corner of `||`). -/
def posSlot (s : PSlot) : Prop :=
  ∀ mn mx, s = PSlot.range mn mx → 0 < mn ∧ 0 < mx

/-- JavaScript `delete specs[key]` on the association-list model. -/
def spRemove : Specs → String → Specs
  | [], _ => []
  | (k, v) :: rest, q => if k = q then spRemove rest q else (k, v) :: spRemove rest q

/-- The value the specifications loop effectively uses for a key: the stored
value when truthy, nothing otherwise. -/
def effGet (sp : Specs) (q : String) : Option JVal :=
  match jsGet sp q with
  | some v => if v.truthy then some v else none
  | none => none

/-- A pricing object with every property absent. -/
def emptyPricing : Pricing :=
  { poor := PSlot.undef, average := PSlot.undef, good := PSlot.undef,
    excellent := PSlot.undef, mint := PSlot.undef, source := none }

/-- A minimal concrete record (only the required fields), used as the base
of the concrete test records below. -/
def camBase : Camera :=
  { id := "rolleiflex-28f", brand := "Rollei", fullName := "Rolleiflex 2.8F",
    tagline := none, yearStart := 1960, yearEnd := none, format := some "6x6",
    film := none, madeIn := none, specs := none, features := none,
    history := none, famousUsers := none, popCulture := none,
    innovations := none, notes := none, pricing := none, ebayUrl := none,
    articles := none, manuals := none, galleries := none, localImage := none,
    imageAttribution := none }

/-- A record whose brand contains a double quote. -/
def camQuote : Camera := { camBase with brand := "Ro\"llei" }

/-- The pricing of the specification's aggregation example: only `poor`
(50-80) and `excellent` (200-300) present. -/
def pricingPoorExc : Pricing :=
  { emptyPricing with poor := PSlot.range 50 80, excellent := PSlot.range 200 300 }

/-- A pricing with poor, average and excellent ranges present. -/
def pricingFull : Pricing :=
  { poor := PSlot.range 50 80, average := PSlot.range 100 150,
    good := PSlot.undef, excellent := PSlot.range 200 300,
    mint := PSlot.undef, source := none }

/-- The 1954 Rollei record of the sorting scenario. -/
def camR54 : Camera := { camBase with id := "rolleiflex-35", yearStart := 1954 }

/-- The 1937 Rollei record of the sorting scenario. -/
def camR37 : Camera := { camBase with id := "rolleicord-1", yearStart := 1937 }

/-- The sorting-scenario input, 1954 record enumerated first. -/
def sortScenario : List Camera := [camR54, camR37]

/-- An article entry pointing at the search-engine-indexing domain. -/
def artGoogle : Article :=
  { url := "https://images.google.com/search", title := "Sample photos",
    source := "Google Images" }

/-- A gallery entry pointing at an ordinary, non-allowlisted domain. -/
def galOther : Gallery :=
  { url := "https://randomblog.example/tlr-shots", label := "Street shots" }

/-- A gallery entry pointing at the search-engine-indexing domain. -/
def galGoogle : Gallery :=
  { url := "https://www.google.com/search?tbm=isch", label := "Google Images" }

/-- A gallery entry pointing at an allowlisted editorial domain. -/
def galFlickr : Gallery :=
  { url := "https://www.flickr.com/groups/tlr", label := "Flickr group" }

/-! ### Basic lemmas about the string utilities -/

theorem startsWithL_sound : ∀ {n h : List Char}, startsWithL n h = true → ∃ t, n ++ t = h
  | [], h, _ => ⟨h, rfl⟩
  | c :: cs, [], hw => by simp [startsWithL] at hw
  | c :: cs, d :: ds, hw => by
    simp only [startsWithL, Bool.and_eq_true, decide_eq_true_eq] at hw
    obtain ⟨t, ht⟩ := startsWithL_sound hw.2
    exact ⟨t, by simp [hw.1, ht]⟩

theorem hasSubL_sound : ∀ {h n : List Char}, hasSubL n h = true → ∃ s t, s ++ n ++ t = h
  | [], n, hw => by
    simp only [hasSubL, List.isEmpty_iff] at hw
    exact ⟨[], [], by simp [hw]⟩
  | c :: cs, n, hw => by
    simp only [hasSubL, Bool.or_eq_true] at hw
    rcases hw with hw | hw
    · obtain ⟨t, ht⟩ := startsWithL_sound hw
      exact ⟨[], t, by simp [ht]⟩
    · obtain ⟨s, t, hst⟩ := hasSubL_sound hw
      exact ⟨c :: s, t, by simp [hst]⟩

/-- A verified boolean containment check yields `StrContains`. -/
theorem strIncludes_sound {hay needle : String}
    (h : strIncludes hay needle = true) : StrContains hay needle :=
  hasSubL_sound h

theorem sc_self (a : String) : StrContains a a := ⟨[], [], by simp⟩

theorem sc_appL {a b n : String} (h : StrContains a n) : StrContains (a ++ b) n := by
  obtain ⟨s, t, hst⟩ := h
  exact ⟨s, t ++ b.data, by rw [String.data_append, ← hst]; simp⟩

theorem sc_appR {a b n : String} (h : StrContains b n) : StrContains (a ++ b) n := by
  obtain ⟨s, t, hst⟩ := h
  exact ⟨a.data ++ s, t, by rw [String.data_append, ← hst]; simp⟩

theorem sc_trans {hay mid n : String}
    (h1 : StrContains hay mid) (h2 : StrContains mid n) : StrContains hay n := by
  obtain ⟨s1, t1, hst1⟩ := h1
  obtain ⟨s2, t2, hst2⟩ := h2
  exact ⟨s1 ++ s2, t2 ++ t1, by rw [← hst1, ← hst2]; simp⟩

theorem sc_join {n sep : String} : ∀ {l : List String} {s : String},
    s ∈ l → StrContains s n → StrContains (joinStr sep l) n
  | [], s, hs, _ => by cases hs
  | [x], s, hs, h => by
    rcases List.mem_singleton.mp hs with rfl
    exact h
  | x :: y :: ys, s, hs, h => by
    rcases List.mem_cons.mp hs with rfl | hs'
    · exact sc_appL (sc_appL h)
    · exact sc_appR (sc_join hs' h)

/-! ### Lemmas about the sort comparator -/

theorem strCmpL_self : ∀ x : List Char, strCmpL x x = 0
  | [] => rfl
  | a :: as => by simp [strCmpL, lt_irrefl, strCmpL_self as]

theorem strCmpL_eq_zero : ∀ {x y : List Char}, strCmpL x y = 0 → x = y
  | [], [], _ => rfl
  | [], _ :: _, h => by simp [strCmpL] at h
  | _ :: _, [], h => by simp [strCmpL] at h
  | a :: as, b :: bs, h => by
    by_cases hab : a < b
    · simp [strCmpL, hab] at h
    · by_cases hba : b < a
      · simp [strCmpL, hab, hba] at h
      · have hab' : a = b := le_antisymm (le_of_not_lt hba) (le_of_not_lt hab)
        simp only [strCmpL, if_neg hab, if_neg hba] at h
        rw [hab', strCmpL_eq_zero h]

theorem strCmpL_swap : ∀ x y : List Char, strCmpL y x = -strCmpL x y
  | [], [] => rfl
  | [], _ :: _ => rfl
  | _ :: _, [] => rfl
  | a :: as, b :: bs => by
    rcases lt_trichotomy a b with h | h | h
    · simp [strCmpL, h, asymm h, ne_of_gt h]
    · subst h
      simp [strCmpL, lt_irrefl, strCmpL_swap as bs]
    · simp [strCmpL, h, asymm h, ne_of_gt h]

theorem strCmpL_trans_neg :
    ∀ {x y z : List Char}, strCmpL x y < 0 → strCmpL y z < 0 → strCmpL x z < 0
  | [], [], z, h1, _ => by simp [strCmpL] at h1
  | [], _ :: _, [], _, h2 => by simp [strCmpL] at h2
  | [], _ :: _, _ :: _, _, _ => by simp [strCmpL]
  | _ :: _, [], _, h1, _ => by simp [strCmpL] at h1
  | _ :: _, _ :: _, [], _, h2 => by simp [strCmpL] at h2
  | a :: as, b :: bs, c :: cs, h1, h2 => by
    have key : ∀ (p q : Char) (ps qs : List Char), strCmpL (p :: ps) (q :: qs) < 0 →
        p < q ∨ (p = q ∧ strCmpL ps qs < 0) := by
      intro p q ps qs h
      by_cases hpq : p < q
      · exact Or.inl hpq
      · by_cases hqp : q < p
        · simp [strCmpL, hpq, hqp] at h
        · exact Or.inr ⟨le_antisymm (le_of_not_lt hqp) (le_of_not_lt hpq),
            by simpa [strCmpL, hpq, hqp] using h⟩
    rcases key a b as bs h1 with hab | ⟨hab_eq, hab⟩
    · rcases key b c bs cs h2 with hbc | ⟨hbc_eq, hbc⟩
      · have hac : a < c := lt_trans hab hbc
        simp [strCmpL, hac]
      · rw [← hbc_eq]
        simp [strCmpL, hab]
    · rw [hab_eq]
      rcases key b c bs cs h2 with hbc | ⟨hbc_eq, hbc⟩
      · simp [strCmpL, hbc]
      · rw [← hbc_eq]
        have hrec := strCmpL_trans_neg hab hbc
        simp [strCmpL, lt_irrefl, hrec]

theorem string_eq_of_data {a b : String} (h : a.data = b.data) : a = b := by
  cases a; cases b; cases h; rfl

theorem localeCompare_self (a : String) : localeCompare a a = 0 := strCmpL_self a.data

theorem localeCompare_eq_zero {a b : String} (h : localeCompare a b = 0) : a = b :=
  string_eq_of_data (strCmpL_eq_zero h)

/-- `camLe` unpacked: brand strictly smaller, or same brand and year no
larger. -/
theorem camLe_iff (a b : Camera) :
    camLe a b = true ↔
      (localeCompare a.brand b.brand < 0 ∨
        (a.brand = b.brand ∧ a.yearStart ≤ b.yearStart)) := by
  unfold camLe camCmp jsOrInt
  by_cases h : localeCompare a.brand b.brand = 0
  · have hb : a.brand = b.brand := localeCompare_eq_zero h
    rw [if_pos h, h]
    simp [hb]
  · have hb : ¬a.brand = b.brand := by
      intro he
      exact h (he ▸ localeCompare_self a.brand)
    rw [if_neg h]
    simp [hb]
    omega

theorem camLe_total (a b : Camera) : (camLe a b || camLe b a) = true := by
  rcases lt_trichotomy (localeCompare a.brand b.brand) 0 with h | h | h
  · simp [(camLe_iff a b).mpr (Or.inl h)]
  · have hb : a.brand = b.brand := localeCompare_eq_zero h
    rcases le_total a.yearStart b.yearStart with hy | hy
    · simp [(camLe_iff a b).mpr (Or.inr ⟨hb, hy⟩)]
    · simp [(camLe_iff b a).mpr (Or.inr ⟨hb.symm, hy⟩)]
  · have h' : localeCompare b.brand a.brand < 0 := by
      have := strCmpL_swap a.brand.data b.brand.data
      unfold localeCompare at h ⊢
      omega
    simp [(camLe_iff b a).mpr (Or.inl h')]

theorem camLe_trans (a b c : Camera)
    (h1 : camLe a b = true) (h2 : camLe b c = true) : camLe a c = true := by
  rcases (camLe_iff a b).mp h1 with hb1 | ⟨hb1, hy1⟩ <;>
    rcases (camLe_iff b c).mp h2 with hb2 | ⟨hb2, hy2⟩
  · exact (camLe_iff a c).mpr (Or.inl (strCmpL_trans_neg hb1 hb2))
  · exact (camLe_iff a c).mpr (Or.inl (hb2 ▸ hb1))
  · exact (camLe_iff a c).mpr (Or.inl (by rwa [hb1]))
  · exact (camLe_iff a c).mpr (Or.inr ⟨hb1.trans hb2, hy1.trans hy2⟩)

/-- The sorted collection is pairwise ordered by the comparator. -/
theorem sortCameras_pairwise (l : List Camera) :
    List.Pairwise (fun a b => camLe a b = true) (sortCameras l) :=
  List.sorted_mergeSort camLe_trans camLe_total l

theorem sortCameras_perm (l : List Camera) : (sortCameras l).Perm l :=
  List.mergeSort_perm l camLe

/-- Sorting a single record is the identity. -/
theorem sortCameras_single (c : Camera) : sortCameras [c] = [c] :=
  List.perm_singleton.mp (sortCameras_perm [c])

/-- Sorting a two-record list whose first record does not compare `≤` the
second swaps them. -/
theorem sortCameras_pair {a b : Camera} (hab : camLe a b = false) :
    sortCameras [a, b] = [b, a] := by
  have hperm := sortCameras_perm [a, b]
  have hpw := sortCameras_pairwise [a, b]
  have hlen : (sortCameras [a, b]).length = 2 := by rw [hperm.length_eq]; rfl
  obtain ⟨x, y, hxy⟩ := List.length_eq_two.mp hlen
  rw [hxy] at hperm hpw ⊢
  have hxyle : camLe x y = true := by
    rcases List.pairwise_cons.mp hpw with ⟨h1, _⟩
    exact h1 y (by simp)
  have hxmem : x ∈ [a, b] := hperm.subset (by simp)
  simp only [List.mem_cons, List.not_mem_nil, or_false] at hxmem
  rcases hxmem with rfl | rfl
  · have hyb := List.perm_singleton.mp hperm.cons_inv
    simp only [List.cons.injEq, and_true] at hyb
    rw [hyb] at hxyle
    rw [hxyle] at hab
    cases hab
  · have hya := List.perm_singleton.mp ((hperm.trans (List.Perm.swap _ _ _)).cons_inv)
    simp only [List.cons.injEq, and_true] at hya
    rw [hya]

/-! ### Lemmas about the grouping map -/

theorem groupGet_addToGroup (m : List (String × List Camera)) (cam : Camera) (b : String) :
    groupGet (addToGroup m cam) b
      = groupGet m b ++ (if cam.brand = b then [cam] else []) := by
  induction m with
  | nil => by_cases h : cam.brand = b <;> simp [addToGroup, groupGet, h]
  | cons p rest ih =>
    obtain ⟨bk, cs⟩ := p
    by_cases h1 : bk = cam.brand
    · by_cases h2 : bk = b
      · have hcb : cam.brand = b := h1.symm.trans h2
        simp [addToGroup, groupGet, h1, h2, hcb]
      · have hcb : ¬cam.brand = b := fun h => h2 (h1.trans h)
        simp [addToGroup, groupGet, h1, h2, hcb]
    · by_cases h2 : bk = b
      · have hcb : ¬cam.brand = b := fun h => h1 (h2.trans h.symm)
        have h1x : ¬b = cam.brand := fun h => h1 (h2.trans h)
        simp [addToGroup, groupGet, h1x, h2, hcb]
      · simp [addToGroup, groupGet, h1, h2, ih]

theorem groupGet_foldl (l : List Camera) :
    ∀ (m : List (String × List Camera)) (b : String),
      groupGet (l.foldl addToGroup m) b
        = groupGet m b ++ l.filter (fun c => decide (c.brand = b)) := by
  induction l with
  | nil => intro m b; simp
  | cons c cs ih =>
    intro m b
    rw [List.foldl_cons, ih, groupGet_addToGroup]
    by_cases h : c.brand = b <;> simp [h]

/-- The grouping map reads back as an order-preserving filter of the input
pass. -/
theorem groupGet_groupByBrand (l : List Camera) (b : String) :
    groupGet (groupByBrand l) b = l.filter (fun c => decide (c.brand = b)) := by
  rw [groupByBrand, groupGet_foldl]
  rfl

/-! ### String join helpers -/

theorem foldl_append_shift : ∀ (l : List String) (acc : String),
    l.foldl (fun r s => r ++ s) acc = acc ++ l.foldl (fun r s => r ++ s) ""
  | [], acc => by simp
  | x :: xs, acc => by
    rw [List.foldl_cons, foldl_append_shift xs (acc ++ x), List.foldl_cons,
        foldl_append_shift xs ("" ++ x)]
    simp [String.append_assoc]

theorem strJoin_cons (a : String) (l : List String) :
    String.join (a :: l) = a ++ String.join l := by
  show (a :: l).foldl (fun r s => r ++ s) "" = a ++ l.foldl (fun r s => r ++ s) ""
  rw [List.foldl_cons, foldl_append_shift l ("" ++ a)]
  simp

/-! ### The pricing-row loop as a filtered render -/

theorem priceRows_foldl (l : List (PSlot × String)) : ∀ acc : String,
    l.foldl
      (fun rows sl =>
        match sl.1 with
        | PSlot.range mn mx => rows ++ rowStr sl.2 mn mx
        | _ => rows) acc
      = acc ++ String.join ((l.filter (fun sl => sl.1.truthy)).map rowFor) := by
  induction l with
  | nil => intro acc; simp [String.join]
  | cons sl ls ih =>
    intro acc
    obtain ⟨s, lbl⟩ := sl
    cases s with
    | undef => rw [List.foldl_cons]; simpa [PSlot.truthy] using ih acc
    | jnull => rw [List.foldl_cons]; simpa [PSlot.truthy] using ih acc
    | range mn mx =>
      rw [List.foldl_cons]
      have := ih (acc ++ rowStr lbl mn mx)
      rw [this]
      simp [PSlot.truthy, rowFor, strJoin_cons, String.append_assoc]

/-! ### Lookup behaviour of `spRemove` -/

theorem jsGet_spRemove_self : ∀ (sp : Specs) (k : String),
    jsGet (spRemove sp k) k = none
  | [], _ => rfl
  | (k', v) :: rest, k => by
    by_cases h : k' = k
    · simp [spRemove, h, jsGet_spRemove_self rest k]
    · simp [spRemove, jsGet, h, jsGet_spRemove_self rest k]

theorem jsGet_spRemove_other : ∀ (sp : Specs) (k q : String), ¬q = k →
    jsGet (spRemove sp k) q = jsGet sp q
  | [], _, _, _ => rfl
  | (k', v) :: rest, k, q, hqk => by
    have hkq : ¬k = q := fun he => hqk he.symm
    by_cases h : k' = k
    · have hk'q : ¬k' = q := fun he => hqk (he ▸ h)
      simp [spRemove, jsGet, h, hk'q, hkq, jsGet_spRemove_other rest k q hqk]
    · by_cases h2 : k' = q
      · simp [spRemove, jsGet, h, h2, hqk]
      · simp [spRemove, jsGet, h, h2, hqk, jsGet_spRemove_other rest k q hqk]

/-- The specifications loop depends on the record only through the effective
(truthy) value at each key. -/
theorem specsRows_congr {sp1 sp2 : Specs} (h : ∀ q, effGet sp1 q = effGet sp2 q) :
    specsRows sp1 = specsRows sp2 := by
  unfold specsRows
  have gen : ∀ (fl : List (String × String)) (acc : String),
      fl.foldl
        (fun rows kl =>
          match jsGet sp1 kl.1 with
          | some v => if v.truthy then rows ++ specRow kl.2 v else rows
          | none => rows) acc
      = fl.foldl
        (fun rows kl =>
          match jsGet sp2 kl.1 with
          | some v => if v.truthy then rows ++ specRow kl.2 v else rows
          | none => rows) acc := by
    intro fl
    induction fl with
    | nil => intro acc; rfl
    | cons kl fls ih =>
      intro acc
      rw [List.foldl_cons, List.foldl_cons]
      have stepEq : ∀ (sp : Specs) (acc : String) (kl : String × String),
          (match jsGet sp kl.1 with
           | some v => if v.truthy then acc ++ specRow kl.2 v else acc
           | none => acc)
          = (match effGet sp kl.1 with
             | some v => acc ++ specRow kl.2 v
             | none => acc) := by
        intro sp acc kl
        unfold effGet
        rcases jsGet sp kl.1 with _ | v
        · rfl
        · by_cases hv : v.truthy = true
          · simp [hv]
          · simp [hv]
      have hs : (match jsGet sp1 kl.1 with
          | some v => if v.truthy then acc ++ specRow kl.2 v else acc
          | none => acc)
          = (match jsGet sp2 kl.1 with
          | some v => if v.truthy then acc ++ specRow kl.2 v else acc
          | none => acc) := by
        rw [stepEq sp1 acc kl, stepEq sp2 acc kl, h kl.1]
      rw [hs, ih]
  exact gen specFields ""

/-- C8: one price row per present condition, in the fixed label order; with
no condition data the block is omitted; a record with no pricing also yields
no structured-data offer. -/
theorem pricing_table_rows :
    formatPrice none = ""
    ∧ (∀ p : Pricing,
        priceRows p = String.join (((condList p).filter (fun sl => sl.1.truthy)).map rowFor))
    ∧ (∀ p : Pricing, ((condList p).all fun sl => !sl.1.truthy) = true →
        formatPrice (some p) = "")
    ∧ jsonLdOffers none = none := by
  refine ⟨rfl, fun p => ?_, fun p hall => ?_, rfl⟩
  · exact (priceRows_foldl (condList p) "").trans (by simp)
  · have hnil : (condList p).filter (fun sl => sl.1.truthy) = [] := by
      rw [List.filter_eq_nil_iff]
      intro sl hsl
      have := (List.all_eq_true.mp hall) sl hsl
      simp at this
      simp [this]
    have hrows : priceRows p = "" := by
      unfold priceRows
      rw [priceRows_foldl (condList p) "", hnil]
      rfl
    simp [formatPrice, hrows]

/-- C8 witness: a pricing object with every condition absent renders no
pricing block. -/
theorem pricing_table_rows_witness :
    formatPrice (some emptyPricing) = ""
    ∧ priceRows pricingPoorExc
      = String.join (((condList pricingPoorExc).filter (fun sl => sl.1.truthy)).map rowFor) :=
  ⟨pricing_table_rows.2.2.1 emptyPricing (by decide),
   pricing_table_rows.2.1 pricingPoorExc⟩

/-- C10: presence checks are truthiness checks — the escaping helper sends
every falsy input (absent, `null`, `""`) to `""`; a specs value of `0`
contributes exactly what an absent key contributes; a `null` pricing
condition contributes exactly what an absent condition contributes; an
empty-string tagline renders nothing. -/
theorem truthiness_presence_checks :
    (escHtml none = "" ∧ escHtml (some "") = "")
    ∧ (∀ (sp : Specs) (k : String), jsGet sp k = some (JVal.jnum 0) →
        specsRows sp = specsRows (spRemove sp k))
    ∧ (∀ p : Pricing, p.poor = PSlot.jnull →
        priceRows p = priceRows { p with poor := PSlot.undef })
    ∧ (∀ cam : Camera, cam.tagline = some "" → taglineHtml cam = "") := by
  refine ⟨⟨rfl, rfl⟩, fun sp k h => ?_, fun p h => ?_, fun cam h => ?_⟩
  · apply specsRows_congr
    intro q
    by_cases hq : q = k
    · subst hq
      simp [effGet, h, jsGet_spRemove_self, JVal.truthy]
    · simp [effGet, jsGet_spRemove_other sp k q hq]
  · simp [priceRows, condList, h]
  · simp [taglineHtml, truthyS, h]

/-- C10 witness: concrete falsy-but-present values behave like absent ones. -/
theorem truthiness_presence_checks_witness :
    specsRows [("weight", JVal.jnum 0)] = specsRows (spRemove [("weight", JVal.jnum 0)] "weight")
    ∧ priceRows { emptyPricing with poor := PSlot.jnull }
      = priceRows { { emptyPricing with poor := PSlot.jnull } with poor := PSlot.undef }
    ∧ taglineHtml { camBase with tagline := some "" } = "" :=
  ⟨truthiness_presence_checks.2.1 [("weight", JVal.jnum 0)] "weight" rfl,
   truthiness_presence_checks.2.2.1 { emptyPricing with poor := PSlot.jnull } rfl,
   truthiness_presence_checks.2.2.2 { camBase with tagline := some "" } rfl⟩

/-! ### C1: structured-data aggregate offer -/

/-- C1 counterexample: for the specification's own example — pricing with
only `poor` (50-80) and `excellent` (200-300) — the structured-data block
carries no offer at all (the code emits an offer only when the `average`
condition is present), so its low bound is not 50 and its high bound is not
300. -/
theorem jsonLd_offer_counterexample : jsonLdOffers (some pricingPoorExc) = none := rfl

/-- C1 amended: an aggregate offer is emitted only when pricing exists and
its `average` condition is present; then, for positive price data, the low
bound is `poor`'s min when `poor` is present and otherwise `average`'s min,
and the high bound falls back `mint`, then `excellent`, then `average`.
In particular, with only `poor` and `excellent` present no offer is emitted. -/
theorem jsonLd_offer_bounds :
    (∀ p : Pricing, p.average.truthy = false → jsonLdOffers (some p) = none)
    ∧ jsonLdOffers none = none
    ∧ (∀ (p : Pricing) (amn amx : Int), p.average = PSlot.range amn amx →
        posSlot p.poor → posSlot p.excellent → posSlot p.mint →
        jsonLdOffers (some p)
          = some { lowPrice := (p.poor.minv).getD amn,
                   highPrice := ((p.mint.maxv).or (p.excellent.maxv)).getD amx }) := by
  refine ⟨fun p h => ?_, rfl, fun p amn amx havg hpoor hexc hmint => ?_⟩
  · rcases ha : p.average with _ | _ | ⟨mn, mx⟩
    · simp [jsonLdOffers, ha]
    · simp [jsonLdOffers, ha]
    · rw [ha] at h
      simp [PSlot.truthy] at h
  · have hlow : jsOrI p.poor.minv amn = (p.poor.minv).getD amn := by
      rcases hp : p.poor with _ | _ | ⟨mn, mx⟩
      · rfl
      · rfl
      · have := (hpoor mn mx hp).1
        simp [jsOrI, PSlot.minv]
        omega
    have hhigh : jsOrI p.mint.maxv (jsOrI p.excellent.maxv amx)
        = ((p.mint.maxv).or (p.excellent.maxv)).getD amx := by
      rcases hm : p.mint with _ | _ | ⟨mn, mx⟩
      · rcases he : p.excellent with _ | _ | ⟨en, ex⟩
        · rfl
        · rfl
        · have := (hexc en ex he).2
          simp [jsOrI, PSlot.maxv, Option.or]
          omega
      · rcases he : p.excellent with _ | _ | ⟨en, ex⟩
        · rfl
        · rfl
        · have := (hexc en ex he).2
          simp [jsOrI, PSlot.maxv, Option.or]
          omega
      · have := (hmint mn mx hm).2
        simp [jsOrI, PSlot.maxv, Option.or]
        omega
    simp [jsonLdOffers, havg, hlow, hhigh]

/-- C1 witness: `poor` 50-80, `average` 100-150, `excellent` 200-300 yields
an offer with low bound 50 (poor's min) and high bound 300 (excellent's
max, since mint is absent). -/
theorem jsonLd_offer_bounds_witness :
    jsonLdOffers (some pricingFull) = some { lowPrice := 50, highPrice := 300 } :=
  jsonLd_offer_bounds.2.2 pricingFull 100 150 rfl
    (fun mn mx h => by cases h; exact ⟨by norm_num, by norm_num⟩)
    (fun mn mx h => by cases h; exact ⟨by norm_num, by norm_num⟩)
    (fun mn mx h => by cases h)

/-! ### C2: escaping of data-sourced strings -/

theorem replaceChar_append (c : Char) (r : List Char) :
    ∀ x y : List Char, replaceChar c r (x ++ y) = replaceChar c r x ++ replaceChar c r y
  | [], y => rfl
  | a :: as, y => by
    simp [replaceChar, replaceChar_append c r as y]

/-- The four chained global replacements of `escHtml` coincide with the
single-pass per-character entity encoding. -/
theorem escChain : ∀ x : List Char,
    replaceChar '"' "&quot;".data
        (replaceChar '>' "&gt;".data
          (replaceChar '<' "&lt;".data
            (replaceChar '&' "&amp;".data x)))
      = x.flatMap htmlEncChar
  | [] => rfl
  | c :: cs => by
    have hrest := escChain cs
    have hhead : replaceChar '"' "&quot;".data
        (replaceChar '>' "&gt;".data
          (replaceChar '<' "&lt;".data
            (replaceChar '&' "&amp;".data [c])))
        = htmlEncChar c := by
      by_cases h1 : c = '&'
      · subst h1; rfl
      · by_cases h2 : c = '<'
        · subst h2; rfl
        · by_cases h3 : c = '>'
          · subst h3; rfl
          · by_cases h4 : c = '"'
            · subst h4; rfl
            · simp [replaceChar, htmlEncChar, h1, h2, h3, h4]
    have hsplit : replaceChar '&' "&amp;".data (c :: cs)
        = replaceChar '&' "&amp;".data [c] ++ replaceChar '&' "&amp;".data cs := by
      rw [← replaceChar_append]
      rfl
    rw [List.flatMap_cons, ← hrest, ← hhead, hsplit,
        replaceChar_append, replaceChar_append, replaceChar_append]

set_option maxRecDepth 1000000 in
/-- C2 counterexample: fields passed through `escHtml` are escaped, but the
lowercased brand is interpolated raw into the breadcrumb anchor of the page
(line 207), so a double quote of the `brand` field reaches the rendered
page unescaped. -/
theorem escaping_counterexample :
    escHtml (some "Ro\"llei") = "Ro&quot;llei"
    ∧ strIncludes (pageHtml (groupByBrand (sortCameras [camQuote])) camQuote)
        "href=\"/cameras/#ro\"llei\">" = true := by
  constructor
  · rfl
  · rw [sortCameras_single camQuote]
    decide

/-- C2 amended: every string inserted through `escHtml` has its `&`, `<`,
`>`, `"` characters entity-encoded (the chained replacements equal the
per-character encoding), and absent input renders as the empty string;
however the record id and the lowercased brand are interpolated without
escaping, so markup characters in those fields reach the page raw. -/
theorem escHtml_encodes :
    (∀ s : String, (escHtml (some s)).data = s.data.flatMap htmlEncChar)
    ∧ escHtml none = "" := by
  refine ⟨fun s => ?_, rfl⟩
  by_cases h : s = ""
  · subst h; rfl
  · simp only [escHtml, if_neg h]
    exact escChain s.data

/-! ### C9: the meta line and the film default -/

/-- The per-camera page always embeds the whole `cam-meta` block. -/
theorem page_has_camMeta (grp : List (String × List Camera)) (cam : Camera) :
    StrContains (pageHtml grp cam) (camMeta cam) := by
  unfold pageHtml
  iterate 31 apply sc_appL
  exact sc_appR (sc_self _)

/-- The `cam-meta` block always opens with its div tag. -/
theorem camMeta_top (cam : Camera) :
    StrContains (camMeta cam) "<div class=\"cam-meta\">" := by
  unfold camMeta
  iterate 7 apply sc_appL
  exact strIncludes_sound (by decide)

/-- With no film list, the `cam-meta` block shows the default 120 stock. -/
theorem camMeta_film (cam : Camera) (h : cam.film = none) :
    StrContains (camMeta cam) " on 120 film" := by
  unfold camMeta
  iterate 3 apply sc_appL
  apply sc_appR
  have hf : jsFilm cam = ["120"] := by simp [jsFilm, h]
  rw [hf]
  exact strIncludes_sound (by decide)

/-- C9: every rendered page carries the years/format/film meta line, and a
record with no film list shows the default "on 120 film" text rather than
omitting the film portion. -/
theorem meta_line_film_default :
    (∀ (grp : List (String × List Camera)) (cam : Camera),
        StrContains (pageHtml grp cam) "<div class=\"cam-meta\">")
    ∧ (∀ (grp : List (String × List Camera)) (cam : Camera), cam.film = none →
        StrContains (pageHtml grp cam) " on 120 film") :=
  ⟨fun grp cam => sc_trans (page_has_camMeta grp cam) (camMeta_top cam),
   fun grp cam h => sc_trans (page_has_camMeta grp cam) (camMeta_film cam h)⟩

/-- C9 witness: the film-less base record's page shows "on 120 film". -/
theorem meta_line_film_default_witness :
    StrContains (pageHtml [] camBase) " on 120 film" :=
  meta_line_film_default.2 [] camBase rfl

/-! ### C4: omission of absent optional sections -/

/-- The Specifications heading is on every page, present specs or not. -/
theorem page_specs_heading (grp : List (String × List Camera)) (cam : Camera) :
    StrContains (pageHtml grp cam) "<h2>Specifications</h2>" := by
  unfold pageHtml
  iterate 28 apply sc_appL
  exact sc_appR (strIncludes_sound (by decide))

set_option maxRecDepth 1000000 in
/-- C4 counterexample: a record with no `specs` field still gets an
empty-bodied `<h2>Specifications</h2>` heading on its page — the section is
not entirely absent. -/
theorem omission_counterexample :
    camBase.specs = none
    ∧ specsTable camBase.specs = ""
    ∧ strIncludes (pageHtml (groupByBrand (sortCameras [camBase])) camBase)
        "<h2>Specifications</h2>" = true := by
  refine ⟨rfl, rfl, ?_⟩
  rw [sortCameras_single camBase]
  decide

/-- C4 amended: every optional section is omitted entirely when its source
field is absent, except that the fixed `Specifications` heading is emitted
on every page even when the specs field is absent. -/
theorem omission_amended :
    (∀ (grp : List (String × List Camera)) (cam : Camera),
        StrContains (pageHtml grp cam) "<h2>Specifications</h2>")
    ∧ specsTable none = ""
    ∧ (∀ cam : Camera, cam.tagline = none → taglineHtml cam = "")
    ∧ (∀ cam : Camera, cam.madeIn = none → madeInHtml cam = "")
    ∧ (∀ cam : Camera, cam.localImage = none → camImageHtml cam = "" ∧ ogImageHtml cam = "")
    ∧ (∀ cam : Camera, cam.features = none → featuresHtml cam = "")
    ∧ (∀ cam : Camera, cam.history = none → historyHtml cam = "")
    ∧ (∀ cam : Camera, cam.famousUsers = none → famousUsersHtml cam = "")
    ∧ (∀ cam : Camera, cam.popCulture = none → popCultureHtml cam = "")
    ∧ (∀ cam : Camera, cam.innovations = none → innovationsHtml cam = "")
    ∧ (∀ cam : Camera, cam.notes = none → notesHtml cam = "")
    ∧ formatPrice none = ""
    ∧ (∀ cam : Camera, cam.ebayUrl = none → ebayHtml cam = "")
    ∧ articlesList none = ""
    ∧ manualsList none = ""
    ∧ galleriesList none = ""
    ∧ (∀ (grp : List (String × List Camera)) (cam : Camera),
        siblingsOf grp cam = [] → relatedCameras grp cam = "")
    ∧ imageAttributionHtml none = "" := by
  refine ⟨page_specs_heading, rfl, ?_, ?_, ?_, ?_, ?_, ?_, ?_, ?_, ?_, rfl, ?_,
    rfl, rfl, rfl, ?_, rfl⟩
  · intro cam h; simp [taglineHtml, truthyS, h]
  · intro cam h; simp [madeInHtml, truthyS, h]
  · intro cam h; exact ⟨by simp [camImageHtml, imgFile, h], by simp [ogImageHtml, imgFile, h]⟩
  · intro cam h; simp [featuresHtml, h]
  · intro cam h; simp [historyHtml, truthyS, h]
  · intro cam h; simp [famousUsersHtml, truthyS, h]
  · intro cam h; simp [popCultureHtml, truthyS, h]
  · intro cam h; simp [innovationsHtml, h]
  · intro cam h; simp [notesHtml, truthyS, h]
  · intro cam h; simp [ebayHtml, truthyS, h]
  · intro grp cam h; simp [relatedCameras, h]

/-- C4 witness: the base record (all optional fields absent) renders an
empty tagline and still carries the Specifications heading. -/
theorem omission_amended_witness :
    StrContains (pageHtml [] camBase) "<h2>Specifications</h2>"
    ∧ taglineHtml camBase = "" :=
  ⟨omission_amended.1 [] camBase, omission_amended.2.2.1 camBase rfl⟩

/-! ### C5: nofollow markers on external resource links -/

/-- C5 counterexample: an article link whose URL contains the designated
search-engine domain still carries only `rel="noopener"` (no `nofollow`),
and a gallery link to an ordinary non-allowlisted domain also gets no
`nofollow` — the marker is applied only to gallery URLs containing
`google.com`, not to every non-allowlisted external link. -/
theorem nofollow_counterexample :
    strIncludes (articlesList (some [artGoogle])) "nofollow" = false
    ∧ strIncludes (articlesList (some [artGoogle])) "rel=\"noopener\"" = true
    ∧ galleryRel galOther = "noopener" :=
  ⟨by decide, by decide, by decide⟩

/-- C5 amended: the `nofollow` marker is decided only for photo-gallery
entries, and solely by whether the URL contains `google.com`; article and
manual links always carry plain `rel="noopener"`. -/
theorem nofollow_amended :
    (∀ g : Gallery, strIncludes g.url "google.com" = true →
        galleryRel g = "noopener nofollow")
    ∧ (∀ g : Gallery, strIncludes g.url "google.com" = false →
        galleryRel g = "noopener")
    ∧ (∀ (gs : List Gallery) (g : Gallery), g ∈ gs →
        StrContains (galleriesList (some gs)) (galleryItem g))
    ∧ (∀ g : Gallery, StrContains (galleryItem g) ("rel=\"" ++ galleryRel g ++ "\">"))
    ∧ (∀ a : Article, StrContains (articleItem a) "rel=\"noopener\">")
    ∧ (∀ m : Manual, StrContains (manualItem m) "rel=\"noopener\">") := by
  refine ⟨fun g h => ?_, fun g h => ?_, fun gs g hg => ?_, fun g => ?_, fun a => ?_, fun m => ?_⟩
  · have hu : ¬g.url = "" := by
      intro he
      rw [he] at h
      exact absurd h (by decide)
    unfold galleryRel
    rw [if_pos (by simp [hu, h])]
  · unfold galleryRel
    rw [if_neg (by simp [h])]
  · cases gs with
    | nil => cases hg
    | cons g0 gs2 =>
      exact sc_appL (sc_appR (sc_join (List.mem_map_of_mem _ hg) (sc_self _)))
  · unfold galleryItem
    iterate 2 apply sc_appL
    exact sc_appR (sc_self _)
  · unfold articleItem
    iterate 4 apply sc_appL
    exact sc_appR (strIncludes_sound (by decide))
  · unfold manualItem
    iterate 2 apply sc_appL
    exact sc_appR (strIncludes_sound (by decide))

/-- C5 witness: a google gallery link gets the marker, an allowlisted
editorial (Flickr) link does not, and the rendered list embeds the item. -/
theorem nofollow_amended_witness :
    galleryRel galGoogle = "noopener nofollow"
    ∧ galleryRel galFlickr = "noopener"
    ∧ StrContains (galleriesList (some [galGoogle, galFlickr])) (galleryItem galGoogle) :=
  ⟨nofollow_amended.1 galGoogle (by decide),
   nofollow_amended.2.1 galFlickr (by decide),
   nofollow_amended.2.2.1 [galGoogle, galFlickr] galGoogle (by simp)⟩

/-! ### C6: index sections and per-record pages -/

set_option maxRecDepth 1000000 in
/-- C6 counterexample: with a single Rollei record, the Yashica group is
empty and yet the index still contains a titled Yashica section — brands of
the fixed order with zero records are not skipped. -/
theorem index_sections_counterexample :
    groupGet (groupByBrand (sortCameras [camBase])) "Yashica" = []
    ∧ strIncludes (brandSections (groupByBrand (sortCameras [camBase])))
        "<h2>Yashica TLR Cameras</h2>" = true := by
  rw [sortCameras_single camBase]
  exact ⟨by decide, by decide⟩

/-- C6 amended: the index emits one titled section per brand of the fixed
display order, including brands with zero records (with an empty grid);
records whose brand is outside the fixed order are in no section's group;
and every record still gets its own output page. -/
theorem index_sections_amended :
    (∀ (grp : List (String × List Camera)) (b : String), b ∈ brandOrder →
        StrContains (brandSections grp) (sectionH2 b))
    ∧ (∀ (grp : List (String × List Camera)) (b : String),
        StrContains (brandSectionFor grp b) "<div class=\"camera-grid\">")
    ∧ (∀ (l : List Camera) (cam : Camera), cam ∈ l → ¬cam.brand ∈ brandOrder →
        ∀ b ∈ brandOrder, ¬cam ∈ groupGet (groupByBrand (sortCameras l)) b)
    ∧ (∀ (l : List Camera) (cam : Camera), cam ∈ l →
        (cam.id ++ ".html", pageHtml (groupByBrand (sortCameras l)) cam) ∈ outputs l) := by
  refine ⟨fun grp b hb => ?_, fun grp b => ?_, fun l cam hmem hnotin b hb hmemg => ?_,
    fun l cam hmem => ?_⟩
  · unfold brandSections
    refine sc_join (List.mem_map_of_mem _ hb) ?_
    unfold brandSectionFor
    iterate 3 apply sc_appL
    exact sc_appR (sc_self _)
  · unfold brandSectionFor
    iterate 2 apply sc_appL
    exact sc_appR (strIncludes_sound (by decide))
  · rw [groupGet_groupByBrand] at hmemg
    have hf := List.mem_filter.mp hmemg
    have hbrand : cam.brand = b := by simpa using hf.2
    exact hnotin (hbrand ▸ hb)
  · have hmem' : cam ∈ sortCameras l := (sortCameras_perm l).mem_iff.mpr hmem
    exact List.mem_append_left _ (List.mem_map_of_mem _ hmem')

/-- C6 witness: the Yashica section heading is on the single-Rollei index,
and the Rollei record still gets its own page in the outputs. -/
theorem index_sections_amended_witness :
    StrContains (brandSections (groupByBrand [camBase])) (sectionH2 "Yashica")
    ∧ (camBase.id ++ ".html", pageHtml (groupByBrand (sortCameras [camBase])) camBase)
        ∈ outputs [camBase] :=
  ⟨index_sections_amended.1 (groupByBrand [camBase]) "Yashica" (by decide),
   index_sections_amended.2.2.2 [camBase] camBase (by simp)⟩

/-! ### C3: sort order of the collection -/

/-- C3: in the sorted collection, a record with a strictly smaller brand
(under the comparator's string order) always comes first, records of equal
brand are ordered by ascending start year, and each brand's index group is
the order-preserving filter of the sorted collection — so cards inherit
that order. -/
theorem collection_sorted (l : List Camera) :
    (∀ i j : Fin (sortCameras l).length,
        localeCompare ((sortCameras l).get i).brand ((sortCameras l).get j).brand < 0 →
        (i : ℕ) < (j : ℕ))
    ∧ (∀ i j : Fin (sortCameras l).length,
        ((sortCameras l).get i).brand = ((sortCameras l).get j).brand →
        ((sortCameras l).get i).yearStart < ((sortCameras l).get j).yearStart →
        (i : ℕ) < (j : ℕ))
    ∧ (∀ b : String, groupGet (groupByBrand (sortCameras l)) b
        = (sortCameras l).filter (fun c => decide (c.brand = b))) := by
  have hp := sortCameras_pairwise l
  rw [List.pairwise_iff_get] at hp
  refine ⟨fun i j hlt => ?_, fun i j hb hy => ?_, fun b => groupGet_groupByBrand _ b⟩
  · rcases Nat.lt_trichotomy (i : ℕ) (j : ℕ) with h | h | h
    · exact h
    · exfalso
      have hij : i = j := Fin.ext h
      rw [hij, localeCompare_self] at hlt
      omega
    · exfalso
      have hle := hp j i (Fin.lt_def.mpr h)
      rcases (camLe_iff _ _).mp hle with hc | ⟨hbji, _⟩
      · have hs := strCmpL_swap (((sortCameras l).get i).brand).data
          (((sortCameras l).get j).brand).data
        unfold localeCompare at hlt hc
        omega
      · rw [hbji, localeCompare_self] at hlt
        omega
  · rcases Nat.lt_trichotomy (i : ℕ) (j : ℕ) with h | h | h
    · exact h
    · exfalso
      have hij : i = j := Fin.ext h
      rw [hij] at hy
      omega
    · exfalso
      have hle := hp j i (Fin.lt_def.mpr h)
      rcases (camLe_iff _ _).mp hle with hc | ⟨hbji, hyji⟩
      · rw [hb, localeCompare_self] at hc
        omega
      · omega

/-- C3 witness: the two-Rollei scenario — the 1937 record sorts before the
1954 record whatever the enumeration order, and the Rollei group reads back
in that order. -/
theorem collection_sorted_witness :
    sortCameras sortScenario = [camR37, camR54] ∧ (0 : ℕ) < 1 := by
  have hs : sortCameras sortScenario = [camR37, camR54] := sortCameras_pair (by decide)
  refine ⟨hs, ?_⟩
  have h0 : 0 < (sortCameras sortScenario).length := by rw [hs]; decide
  have h1 : 1 < (sortCameras sortScenario).length := by rw [hs]; decide
  have hg0 : (sortCameras sortScenario).get ⟨0, h0⟩ = camR37 := by
    rw [List.get_of_eq hs]
    rfl
  have hg1 : (sortCameras sortScenario).get ⟨1, h1⟩ = camR54 := by
    rw [List.get_of_eq hs]
    rfl
  exact (collection_sorted sortScenario).2.1 ⟨0, h0⟩ ⟨1, h1⟩
    (by rw [hg0, hg1]; rfl) (by rw [hg0, hg1]; decide)

/-! ### C7: the related-items block -/

/-- C7: with unique identifiers, the related-items list of a record is
exactly the other records of its brand in collection order, never contains
the record itself, and the whole block is omitted when the record is the
only one of its brand. -/
theorem related_same_brand (l : List Camera) (cam : Camera)
    (hu : l.Pairwise (fun a b => a.id ≠ b.id)) (hmem : cam ∈ l) :
    siblingsOf (groupByBrand (sortCameras l)) cam
      = (sortCameras l).filter (fun c => decide (c.brand = cam.brand) && !decide (c = cam))
    ∧ ¬cam ∈ siblingsOf (groupByBrand (sortCameras l)) cam
    ∧ ((sortCameras l).filter (fun c => decide (c.brand = cam.brand)) = [cam] →
        relatedCameras (groupByBrand (sortCameras l)) cam = "") := by
  have hperm := sortCameras_perm l
  have hsym : Symmetric (fun a b : Camera => a.id ≠ b.id) := fun x y h he => h he.symm
  have hu' : (sortCameras l).Pairwise (fun a b => a.id ≠ b.id) :=
    (hperm.pairwise_iff (fun h he => h he.symm)).mpr hu
  have hid : ∀ c ∈ sortCameras l, (decide (c.id = cam.id)) = (decide (c = cam)) := by
    intro c hc
    apply decide_eq_decide.mpr
    constructor
    · intro he
      by_contra hne
      exact (List.Pairwise.forall hsym hu' hc (hperm.mem_iff.mpr hmem) hne) he
    · intro he
      rw [he]
  have heq : siblingsOf (groupByBrand (sortCameras l)) cam
      = (sortCameras l).filter (fun c => decide (c.brand = cam.brand) && !decide (c = cam)) := by
    unfold siblingsOf
    rw [groupGet_groupByBrand, List.filter_filter]
    apply List.filter_congr
    intro c hc
    rw [hid c hc, Bool.and_comm]
  refine ⟨heq, ?_, fun hone => ?_⟩
  · rw [heq]
    intro hmem2
    have := (List.mem_filter.mp hmem2).2
    simp at this
  · have h2 : (sortCameras l).filter (fun c => decide (c.brand = cam.brand) && !decide (c = cam))
        = ((sortCameras l).filter (fun c => decide (c.brand = cam.brand))).filter
            (fun c => !decide (c = cam)) := by
      rw [List.filter_filter]
      apply List.filter_congr
      intro c hc
      rw [Bool.and_comm]
    have hsib : siblingsOf (groupByBrand (sortCameras l)) cam = [] := by
      rw [heq, h2, hone]
      simp
    simp [relatedCameras, hsib]

/-- C7 witness: in the two-Rollei scenario each record's sibling list is
the other record alone, and never the record itself. -/
theorem related_same_brand_witness :
    ¬camR37 ∈ siblingsOf (groupByBrand (sortCameras sortScenario)) camR37 :=
  (related_same_brand sortScenario camR37 (by decide) (by decide)).2.1
